import Mathlib

/-!
# HedgeOS: handler dispatch, countdown app and navigation state

A shallow embedding of `src/js/app.js` (class `HedgeOS`),
`src/js/handlers/AppHandler.js` (class `AppHandler`) and
`src/js/modules/AudioManager.js` (class `AudioManager`).

Conventions of the embedding.

* A JavaScript object reference that may be `null`/`undefined` is an `Option`.
* A string-valued property that may be missing is an `Option String`; JavaScript
  truthiness of such a value (`if (x)`, `x || d`) is `truthy`/`orElse` below: a
  missing value and the empty string are falsy.
* Collaborator classes whose source is not part of `src/`
  (`FileSystem`, `Terminal`, `Navigator`, `FileGrid`, `WindowManager`, the five
  non-app handlers) are modelled by the interface the two embedded classes use.
* A method that dereferences a `null` collaborator throws a `TypeError`; the
  state mutated before the throw is kept (`Outcome.threw`).
* A promise reaction (the callback given to `then` or `catch`) is a separate
  step that runs after the call that made the promise has returned.
* Times are integer milliseconds (`Date.prototype.getTime`), `none` standing for
  the `NaN` of an invalid date. They are `Int`: the numbers of JavaScript are
  exact on integers below `2^53`, which covers every difference of two dates
  a page can form from the current time.
-/

namespace Hedge

/-! ## JavaScript values used by the embedding -/

/-- Truthiness of an optional string property: `undefined` and `""` are falsy. -/
def truthy : Option String → Bool
  | none => false
  | some s => s != ""

/-- The expression `x || d` for an optional string property `x`. -/
def orElse (x : Option String) (d : String) : String :=
  match x with
  | none => d
  | some s => if s != "" then s else d

/-- The `config` object of a file node, with the keys that `AppHandler` reads. -/
structure Config where
  targetDate : Option String := none
  title : Option String := none
  message : Option String := none
deriving DecidableEq, Repr

/-- A node of the virtual file tree, with the properties that `app.js` and
`AppHandler.js` read: `type` is tested against `'folder'` in `onFileClick`. -/
structure File where
  name : String
  path : String
  type : String := "file"
  hidden : Bool := false
  fileType : Option String := none
  appType : Option String := none
  config : Option Config := none
deriving DecidableEq, Repr

/-! ## Collaborators -/

/-- Interface of `modules/FileSystem.js` (not part of `src/`), reduced to the
four methods `HedgeOS` calls on it. The tree behind it is immutable. -/
structure FileSystem where
  «exists» : String → Bool
  isFolder : String → Bool
  getItem : String → Option File
  getContents : String → Bool → List File
  getExtension : String → String

/-- The calls `HedgeOS` makes on `modules/Terminal.js`, recorded in order. -/
inductive TerminalCall where
  | system (msg : String)
  | log (msg : String)
  | success (msg : String)
  | error (msg : String)
  | logNav (path : String)
  | logOpen (name : String)
  | logClose (name : String)
  | logHiddenToggle (showHidden : Bool)
  | clear
deriving DecidableEq, Repr

/-- A `Terminal` is the sequence of calls it has received. -/
abbrev Terminal := List TerminalCall

/-- The button an `AudioManager` may drive: the `data-lucide` attribute of its
icon element (`none` when it has no icon element) and whether it carries the
class `active`. -/
structure AudioButton where
  icon : Option String := none
  active : Bool := false
deriving DecidableEq, Repr

/-- State of `modules/AudioManager.js`: the `playing` flag, the `paused` and
`muted` properties of the audio element (which is taken to exist), the button
(`null` in the application, which passes no selector), and the number of
promises returned by `audio.play()` whose reaction has not run yet. The
defaults are the state the constructor leaves. -/
structure AudioManager where
  playing : Bool := false
  audioPaused : Bool := true
  audioMuted : Bool := true
  button : Option AudioButton := none
  pendingPlay : Nat := 0
deriving DecidableEq, Repr

/-- Method `AudioManager.isPlaying`. -/
def AudioManager.isPlaying (a : AudioManager) : Bool :=
  a.playing && !a.audioPaused

/-- Method `AudioManager.updateUI` (AudioManager.js lines 77-95). -/
def AudioManager.updateUI (a : AudioManager) (isPlaying : Bool) : AudioManager :=
  match a.button with
  | none => a
  | some button =>
    let button :=
      match button.icon with
      | some _ => { button with icon := some (if isPlaying then "volume-2" else "volume-x") }
      | none => button
    { a with button := some { button with active := isPlaying } }

/-- Method `AudioManager.play` (AudioManager.js lines 48-56), up to its return.
The element is unmuted and `audio.play()` is called: if the browser allows
playback (`allowed`) the element leaves the paused state. The callbacks given
to `then` and `catch` are promise reactions: they run in a later job
(`playSettled`), never inside this call. -/
def AudioManager.play (a : AudioManager) (allowed : Bool) : AudioManager :=
  { a with
    audioMuted := false
    audioPaused := if allowed then false else a.audioPaused
    pendingPlay := a.pendingPlay + 1 }

/-- The reaction of one pending `audio.play()` promise, run as a job after the
call that made it has returned: the `then` callback when the promise is
fulfilled, the `catch` callback (which only logs) when it is rejected. -/
def AudioManager.playSettled (a : AudioManager) (fulfilled : Bool) : AudioManager :=
  if a.pendingPlay = 0 then a
  else
    let a := { a with pendingPlay := a.pendingPlay - 1 }
    if fulfilled then AudioManager.updateUI { a with playing := true } true
    else a

/-- Method `AudioManager.pause` (AudioManager.js lines 61-65). -/
def AudioManager.pause (a : AudioManager) : AudioManager :=
  AudioManager.updateUI { a with audioPaused := true, playing := false } false

/-- Method `AudioManager.toggle` (AudioManager.js lines 37-43). -/
def AudioManager.toggle (a : AudioManager) (allowed : Bool) : AudioManager :=
  if a.playing then a.pause
  else a.play allowed

/-! ## Browser services: interval timers, the clock, the rendered container -/

/-- The callback handed to `setInterval`. The only one in the embedded code is
the closure `updateCountdown` of `renderCountdown`, which captures the
destination time (`none` for an invalid date). -/
inductive Callback where
  | updateCountdown (target : Option Int)
deriving DecidableEq, Repr

/-- A pending recurring timer: the id `setInterval` returned, its callback and
its period in milliseconds. -/
structure IntervalTimer where
  id : Nat
  callback : Callback
  delay : Nat
deriving DecidableEq, Repr

/-- The timer table of the page: ids are handed out in increasing order,
`live` are the intervals started and not yet cancelled. -/
structure Timers where
  nextId : Nat := 1
  live : List IntervalTimer := []
deriving DecidableEq, Repr

/-- The call `setInterval(callback, delay)`: returns the new id. -/
def Timers.setInterval (t : Timers) (callback : Callback) (delay : Nat) : Nat × Timers :=
  (t.nextId, { nextId := t.nextId + 1, live := t.live ++ [⟨t.nextId, callback, delay⟩] })

/-- The call `clearInterval(id)`: an id that is not live is ignored. -/
def Timers.clearInterval (t : Timers) (id : Nat) : Timers :=
  { t with live := t.live.filter fun x => x.id != id }

/-- The clock and date parser of the page: `now` is `new Date().getTime()`,
`parse s` is `new Date(s).getTime()`, with `none` for `NaN`. -/
structure Clock where
  now : Int
  parse : String → Option Int

/-- A JavaScript `Map` from paths to interval ids, in insertion order. -/
abbrev IntervalMap := List (String × Nat)

/-- Method `Map.prototype.has`. -/
def IntervalMap.has (m : IntervalMap) (key : String) : Bool :=
  m.any fun e => e.1 == key

/-- Method `Map.prototype.get`. -/
def IntervalMap.get (m : IntervalMap) (key : String) : Option Nat :=
  (m.find? fun e => e.1 == key).map Prod.snd

/-- Method `Map.prototype.set`: an existing key keeps its place and takes the
new value, a new key is appended. -/
def IntervalMap.set (m : IntervalMap) (key : String) (value : Nat) : IntervalMap :=
  if IntervalMap.has m key then m.map fun e => if e.1 == key then (key, value) else e
  else m ++ [(key, value)]

/-- Method `Map.prototype.delete`. -/
def IntervalMap.delete (m : IntervalMap) (key : String) : IntervalMap :=
  m.filter fun e => e.1 != key

/-- The elements of the countdown markup that `updateCountdown` writes:
the `textContent` of the four value spans and the `display` style of the
message element. -/
structure CountdownDisplay where
  title : String
  message : String
  days : String := "--"
  hours : String := "--"
  minutes : String := "--"
  seconds : String := "--"
  messageDisplay : String := "none"
deriving DecidableEq, Repr

/-- The audio player markup: title, button icon and label, status line, and
whether the click listener of the button is attached. -/
structure AudioPlayerView where
  title : String
  icon : String := "play"
  label : String := "Play Music"
  status : String := "Paused"
  listening : Bool := false
deriving DecidableEq, Repr

/-- What a window's content element shows. `unknownApp shown` is the
placeholder of `renderUnknown`, with the text after
`Unknown application type: `; `rendered h` is the output of one of the five
handlers whose source is not part of `src/`. -/
inductive Content where
  | empty
  | countdown (d : CountdownDisplay)
  | audioPlayer (v : AudioPlayerView)
  | unknownApp (shown : String)
  | rendered (handler : String)
deriving DecidableEq, Repr

/-- A window's content element: its class list and its content, and the one
part of the rest of the document that a handler reaches from it:
`precedingCountdown` is the countdown markup of another window that stands
before this element in the document, if there is one. Every countdown markup
carries the same five ids, so that markup is where `document.getElementById`
finds them first. -/
structure Container where
  classList : List String := []
  content : Content := Content.empty
  precedingCountdown : Option CountdownDisplay := none
deriving DecidableEq, Repr

/-- Method `classList.add`. -/
def Container.addClass (c : Container) (cls : String) : Container :=
  if c.classList.contains cls then c else { c with classList := c.classList ++ [cls] }

/-! ## `AppHandler` (src/js/handlers/AppHandler.js) -/

/-- Fields of an `AppHandler` instance. The `AudioManager` object is shared by
reference with the application; the embedding keeps its state here. -/
structure AppHandler where
  audioManager : Option AudioManager
  intervals : IntervalMap
deriving DecidableEq, Repr

/-- The constructor `new AppHandler(audioManager)`. -/
def AppHandler.new (audioManager : Option AudioManager) : AppHandler :=
  { audioManager := audioManager, intervals := [] }

/-- What a `render` call leaves behind: the handler, the timer table of the
page and the content element. -/
structure Rendered where
  handler : AppHandler
  timers : Timers
  container : Container
deriving DecidableEq, Repr

/-- Method `String.prototype.padStart` with a one-character filler. -/
def padStart (s : String) (targetLength : Nat) (fill : Char) : String :=
  String.mk (List.replicate (targetLength - s.length) fill) ++ s

/-- The four `const` of `updateCountdown` (AppHandler.js lines 80-83). -/
structure Units where
  days : Int
  hours : Int
  minutes : Int
  seconds : Int
deriving DecidableEq, Repr

/-- The unit breakdown of `updateCountdown`: `Math.floor(a / b)` with `b > 0`
is `a / b` on `Int`, the remainder operator `%` of JavaScript is `Int.tmod`. -/
def countdownUnits (diff : Int) : Units :=
  { days := diff / (1000 * 60 * 60 * 24)
    hours := (diff.tmod (1000 * 60 * 60 * 24)) / (1000 * 60 * 60)
    minutes := (diff.tmod (1000 * 60 * 60)) / (1000 * 60)
    seconds := (diff.tmod (1000 * 60)) / 1000 }

/-- The closure `updateCountdown` of `renderCountdown`, run at time `now` for
the destination `target`, on the elements it finds by id. With an invalid date
every comparison and quotient is `NaN`. -/
def updateCountdown (now : Int) (target : Option Int) (d : CountdownDisplay) : CountdownDisplay :=
  match target with
  | none => { d with days := "NaN", hours := "NaN", minutes := "NaN", seconds := "NaN" }
  | some target =>
    let diff := target - now
    if diff ≤ 0 then
      { d with days := "0", hours := "0", minutes := "0", seconds := "0", messageDisplay := "block" }
    else
      let u := countdownUnits diff
      { d with
        days := toString u.days
        hours := padStart (toString u.hours) 2 '0'
        minutes := padStart (toString u.minutes) 2 '0'
        seconds := padStart (toString u.seconds) 2 '0' }

/-- Method `AppHandler.renderCountdown` (AppHandler.js lines 34-94). The
markup is written with `--` in the four units and the message hidden. The
first `updateCountdown()` then writes through `document.getElementById`: into
the countdown markup that precedes the container in the document when there
is one, leaving the markup just written as it is, and into the markup just
written otherwise. -/
def AppHandler.renderCountdown (h : AppHandler) (clock : Clock) (timers : Timers)
    (container : Container) (file : File) : Rendered :=
  let config := file.config.getD {}
  let targetDate := clock.parse (orElse config.targetDate "December 31, 2025")
  let title := orElse config.title "Countdown"
  let message := orElse config.message "Time's up!"
  let display : CountdownDisplay := { title := title, message := message }
  let started := timers.setInterval (Callback.updateCountdown targetDate) 1000
  { handler := { h with intervals := IntervalMap.set h.intervals file.path started.1 }
    timers := started.2
    container :=
      match container.precedingCountdown with
      | some first =>
        { container with
          content := Content.countdown display
          precedingCountdown := some (updateCountdown clock.now targetDate first) }
      | none =>
        { container with
          content := Content.countdown (updateCountdown clock.now targetDate display) } }

/-- Method `AppHandler.renderAudioPlayer`. -/
def AppHandler.renderAudioPlayer (h : AppHandler) (timers : Timers)
    (container : Container) (file : File) : Rendered :=
  let config := file.config.getD {}
  let title := orElse config.title "Audio Player"
  let view : AudioPlayerView := { title := title }
  let view :=
    match h.audioManager with
    | some audioManager =>
      let isPlaying := audioManager.isPlaying
      { view with
        icon := if isPlaying then "pause" else "play"
        label := if isPlaying then "Pause Music" else "Play Music"
        status := if isPlaying then "Playing" else "Paused"
        listening := true }
    | none => view
  { handler := h, timers := timers, container := { container with content := Content.audioPlayer view } }

/-- The closure `updateUI` of `renderAudioPlayer` (AppHandler.js lines
164-174), for the manager state it reads. -/
def AppHandler.audioUpdateUI (audioManager : AudioManager) (view : AudioPlayerView) :
    AudioPlayerView :=
  let isPlaying := audioManager.isPlaying
  { view with
    icon := if isPlaying then "pause" else "play"
    label := if isPlaying then "Pause Music" else "Play Music"
    status := if isPlaying then "Playing" else "Paused" }

/-- The click listener that `renderAudioPlayer` attaches to the button
(AppHandler.js lines 176-179): `this.audioManager.toggle(); updateUI();`.
Without an audio manager no listener is attached. -/
def AppHandler.audioToggleClick (h : AppHandler) (view : AudioPlayerView) (allowed : Bool) :
    AppHandler × AudioPlayerView :=
  match h.audioManager with
  | none => (h, view)
  | some audioManager =>
    let audioManager := audioManager.toggle allowed
    ({ h with audioManager := some audioManager }, AppHandler.audioUpdateUI audioManager view)

/-- The job that settles one pending `audio.play()` promise of the handler's
audio manager. The audio player markup is not touched: the `then` callback
calls the manager's own `updateUI`, not the closure of `renderAudioPlayer`. -/
def AppHandler.audioPlaySettled (h : AppHandler) (view : AudioPlayerView) (fulfilled : Bool) :
    AppHandler × AudioPlayerView :=
  match h.audioManager with
  | none => (h, view)
  | some audioManager =>
    ({ h with audioManager := some (audioManager.playSettled fulfilled) }, view)

/-- Method `AppHandler.renderUnknown`. -/
def AppHandler.renderUnknown (h : AppHandler) (timers : Timers)
    (container : Container) (file : File) : Rendered :=
  { handler := h, timers := timers
    container := { container with content := Content.unknownApp (orElse file.appType "none") } }

/-- Method `AppHandler.render`. -/
def AppHandler.render (h : AppHandler) (clock : Clock) (timers : Timers)
    (container : Container) (file : File) : Rendered :=
  let container := container.addClass "app"
  let appType := orElse file.appType "unknown"
  if appType = "countdown" then h.renderCountdown clock timers container file
  else if appType = "audio" then h.renderAudioPlayer timers container file
  else h.renderUnknown timers container file

/-- Method `AppHandler.cleanup`. -/
def AppHandler.cleanup (h : AppHandler) (timers : Timers) (path : String) : AppHandler × Timers :=
  if IntervalMap.has h.intervals path then
    let timers :=
      match IntervalMap.get h.intervals path with
      | some id => timers.clearInterval id
      | none => timers
    ({ h with intervals := IntervalMap.delete h.intervals path }, timers)
  else (h, timers)

/-- Static method `AppHandler.canHandle`. -/
def AppHandler.canHandle (file : File) : Bool :=
  file.fileType == some "app" || ".app".data.isSuffixOf file.name.data

/-! ## `HedgeOS` (src/js/app.js) -/

/-- State of `modules/Navigator.js` (not part of `src/`): the path last given
to `setPath`. -/
structure Navigator where
  path : Option String := none
deriving DecidableEq, Repr

/-- Method `Navigator.setPath`. -/
def Navigator.setPath (_n : Navigator) (path : String) : Navigator :=
  { path := some path }

/-- State of `modules/FileGrid.js` (not part of `src/`): the listing last
given to `render`. -/
structure FileGrid where
  contents : List File := []
deriving DecidableEq, Repr

/-- Method `FileGrid.render`. -/
def FileGrid.render (_g : FileGrid) (contents : List File) : FileGrid :=
  { contents := contents }

/-- An instance of one of the five handler classes whose source is not part of
`src/`, identified by its class. -/
inductive PlainHandler where
  | MarkdownHandler
  | LinkHandler
  | ShellHandler
  | TextHandler
  | ArchiveHandler
deriving DecidableEq, Repr

/-- Name of the class of a plain handler. -/
def PlainHandler.className : PlainHandler → String
  | MarkdownHandler => "MarkdownHandler"
  | LinkHandler => "LinkHandler"
  | ShellHandler => "ShellHandler"
  | TextHandler => "TextHandler"
  | ArchiveHandler => "ArchiveHandler"

/-- A handler object, as `getHandler` returns it. -/
inductive Handler where
  | plain (h : PlainHandler)
  | app (h : AppHandler)
deriving DecidableEq, Repr

/-- The object `this.handlers`: a property that is not set reads `undefined`. -/
structure Handlers where
  markdown : Option PlainHandler := none
  link : Option PlainHandler := none
  shell : Option PlainHandler := none
  app : Option AppHandler := none
  text : Option PlainHandler := none
  archive : Option PlainHandler := none
deriving DecidableEq, Repr

/-- An open window of `modules/WindowManager.js`: the file, the handler that
rendered it and its content element. -/
structure OpenWindow where
  file : File
  handler : Handler
  container : Container
deriving DecidableEq, Repr

/-- State of `modules/WindowManager.js` (not part of `src/`): the open windows,
the last one on top. -/
structure WindowManager where
  windows : List OpenWindow := []
deriving DecidableEq, Repr

/-- Fields of the `HedgeOS` instance, with the two parts of the page its
methods write: the interval timers and the document title. -/
structure HedgeOS where
  filesystem : Option FileSystem
  navigator : Option Navigator
  fileGrid : Option FileGrid
  windowManager : Option WindowManager
  terminal : Option Terminal
  audioManager : Option AudioManager
  showHidden : Bool
  currentPath : String
  handlers : Handlers
  timers : Timers
  title : String

/-- The `HedgeOS` constructor (app.js lines 27-39), on a page with the timer
table `timers` and the document title `title`. -/
def HedgeOS.new (timers : Timers) (title : String) : HedgeOS :=
  { filesystem := none
    navigator := none
    fileGrid := none
    windowManager := none
    terminal := none
    audioManager := none
    showHidden := false
    currentPath := "/home/hedge"
    handlers := {}
    timers := timers
    title := title }

/-- How a method call ends: normally, or with an exception that escapes it;
either way with the state as mutated so far. -/
inductive Outcome where
  | ok (s : HedgeOS)
  | threw (s : HedgeOS) (error : String)

/-- The state a method call leaves. -/
def Outcome.state : Outcome → HedgeOS
  | ok s => s
  | threw s _ => s

/-- Whether the call ended with an exception. -/
def Outcome.hasThrown : Outcome → Bool
  | ok _ => false
  | threw _ _ => true

/-- Sequencing of statements: an exception skips what follows. -/
def Outcome.andThen (o : Outcome) (next : HedgeOS → Outcome) : Outcome :=
  match o with
  | ok s => next s
  | threw s e => threw s e

/-- The exception of a property access on `null` or `undefined`. -/
def typeError : String := "TypeError"

/-- A method call on `this.terminal`. -/
def HedgeOS.callTerminal (s : HedgeOS) (call : TerminalCall) : Outcome :=
  match s.terminal with
  | none => Outcome.threw s typeError
  | some t => Outcome.ok { s with terminal := some (t ++ [call]) }

/-- Method `HedgeOS.navigate` (app.js lines 195-223). -/
def HedgeOS.navigate (s : HedgeOS) (path : String) : Outcome :=
  match s.filesystem with
  | none => Outcome.threw s typeError
  | some fs =>
    if !fs.exists path then
      s.callTerminal (TerminalCall.error s!"Path not found: {path}")
    else if !fs.isFolder path then
      s.callTerminal (TerminalCall.error s!"Not a folder: {path}")
    else
      let s := { s with currentPath := path }
      (s.callTerminal (TerminalCall.logNav path)).andThen fun s =>
        match s.navigator with
        | none => Outcome.threw s typeError
        | some navigator =>
          let s := { s with navigator := some (navigator.setPath path) }
          let contents := fs.getContents path s.showHidden
          match s.fileGrid with
          | none => Outcome.threw s typeError
          | some fileGrid =>
            Outcome.ok { s with
              fileGrid := some (fileGrid.render contents)
              title := s!"HedgeOS ~ {path}" }

/-- Method `HedgeOS.onNavigate`. -/
def HedgeOS.onNavigate (s : HedgeOS) (path : String) : Outcome :=
  s.navigate path

/-- The `switch (file.fileType)` of `getHandler` (app.js lines 293-306): the
value of the `return` of the matching `case`, `none` when no `case` matches. -/
def HedgeOS.handlerByFileType (s : HedgeOS) (fileType : String) : Option (Option Handler) :=
  if fileType = "markdown" then some (s.handlers.markdown.map Handler.plain)
  else if fileType = "link" then some (s.handlers.link.map Handler.plain)
  else if fileType = "shell" then some (s.handlers.shell.map Handler.plain)
  else if fileType = "app" then some (s.handlers.app.map Handler.app)
  else if fileType = "text" then some (s.handlers.text.map Handler.plain)
  else if fileType = "archive" then some (s.handlers.archive.map Handler.plain)
  else none

/-- The `switch (ext)` of `getHandler` (app.js lines 311-327): the value of the
`return` of the matching `case`, `none` when no `case` matches. -/
def HedgeOS.handlerByExtension (s : HedgeOS) (ext : String) : Option (Option Handler) :=
  if ext = "md" then some (s.handlers.markdown.map Handler.plain)
  else if ext = "sh" ∨ ext = "bash" then some (s.handlers.shell.map Handler.plain)
  else if ext = "txt" then some (s.handlers.text.map Handler.plain)
  else if ext = "link" then some (s.handlers.link.map Handler.plain)
  else if ext = "app" then some (s.handlers.app.map Handler.app)
  else if ext = "tar" ∨ ext = "gz" ∨ ext = "zip" then some (s.handlers.archive.map Handler.plain)
  else none

/-- Method `HedgeOS.getHandler` (app.js lines 290-331). The result is the
returned handler (`none` for `undefined`), or the exception of reading
`getExtension` from a `null` filesystem. -/
def HedgeOS.getHandler (s : HedgeOS) (file : File) : Except String (Option Handler) :=
  let byFileType :=
    match file.fileType with
    | some fileType => if fileType != "" then s.handlerByFileType fileType else none
    | none => none
  match byFileType with
  | some handler => Except.ok handler
  | none =>
    match s.filesystem with
    | none => Except.error typeError
    | some fs =>
      match s.handlerByExtension (fs.getExtension file.name) with
      | some handler => Except.ok handler
      | none => Except.ok (s.handlers.text.map Handler.plain)

/-- The call `handler.render(container, file)` that the window manager makes
on the handler `getHandler` returned, with its effect on the handler object
`this.handlers.app` and on the timers of the page. -/
def HedgeOS.renderWith (s : HedgeOS) (clock : Clock) (handler : Handler)
    (container : Container) (file : File) : HedgeOS × Container :=
  match handler with
  | Handler.plain h => (s, { container with content := Content.rendered h.className })
  | Handler.app h =>
    let r := h.render clock s.timers container file
    ({ s with handlers := { s.handlers with app := some r.handler }, timers := r.timers }, r.container)

/-- The countdown markup that stands first among the open windows. -/
def WindowManager.firstCountdown : List OpenWindow → Option CountdownDisplay
  | [] => none
  | w :: rest =>
    match w.container.content with
    | Content.countdown d => some d
    | _ => WindowManager.firstCountdown rest

/-- The open windows after a write into the countdown markup that stands
first among them. -/
def WindowManager.setFirstCountdown (d : CountdownDisplay) : List OpenWindow → List OpenWindow
  | [] => []
  | w :: rest =>
    match w.container.content with
    | Content.countdown _ =>
      { w with container := { w.container with content := Content.countdown d } } :: rest
    | _ => w :: WindowManager.setFirstCountdown d rest

/-- Modelled from the spec: `WindowManager.open(file, handler)` of
`modules/WindowManager.js`, which is not part of `src/`. A window already open
for `file.path` is raised and nothing is rendered; otherwise the content is
produced by `handler.render` and the new window is stored on top. The content
elements are taken to stand in the document in the order of the windows, the
new one last: what the render writes into an earlier countdown markup is
stored in that window. -/
def HedgeOS.windowManagerOpen (s : HedgeOS) (clock : Clock) (file : File)
    (handler : Option Handler) : Outcome :=
  match s.windowManager with
  | none => Outcome.threw s typeError
  | some wm =>
    if wm.windows.any fun w => w.file.path == file.path then
      let raised : WindowManager :=
        { windows := (wm.windows.filter fun w => w.file.path != file.path)
            ++ (wm.windows.filter fun w => w.file.path == file.path) }
      Outcome.ok { s with windowManager := some raised }
    else
      match handler with
      | none => Outcome.threw s typeError
      | some handler =>
        let r := s.renderWith clock handler
          { precedingCountdown := WindowManager.firstCountdown wm.windows } file
        let earlier :=
          match r.2.precedingCountdown with
          | some d => WindowManager.setFirstCountdown d wm.windows
          | none => wm.windows
        let opened : WindowManager :=
          { windows := earlier ++ [{ file := file, handler := handler, container := r.2 }] }
        Outcome.ok { r.1 with windowManager := some opened }

/-- Method `HedgeOS.openFile` (app.js lines 258-271). -/
def HedgeOS.openFile (s : HedgeOS) (clock : Clock) (file : File) : Outcome :=
  (s.callTerminal (TerminalCall.logOpen file.name)).andThen fun s =>
    match s.getHandler file with
    | Except.error e => Outcome.threw s e
    | Except.ok handler => s.windowManagerOpen clock file handler

/-- Method `HedgeOS.onFileClick` (app.js lines 235-241). -/
def HedgeOS.onFileClick (s : HedgeOS) (clock : Clock) (item : File) : Outcome :=
  if item.type = "folder" then s.navigate item.path
  else s.openFile clock item

/-- Method `HedgeOS.onWindowClose` (app.js lines 246-253). -/
def HedgeOS.onWindowClose (s : HedgeOS) (file : File) : Outcome :=
  (s.callTerminal (TerminalCall.logClose file.name)).andThen fun s =>
    if file.fileType = some "app" then
      match s.handlers.app with
      | none => Outcome.threw s typeError
      | some app =>
        let r := app.cleanup s.timers file.path
        Outcome.ok { s with handlers := { s.handlers with app := some r.1 }, timers := r.2 }
    else Outcome.ok s

/-- Modelled from the spec: `WindowManager.close(path)` of
`modules/WindowManager.js`, which is not part of `src/`. Without a window for
`path` nothing happens; otherwise the close callback given to the constructor
(`onWindowClose`) runs on the file and the window is removed. -/
def HedgeOS.windowManagerClose (s : HedgeOS) (path : String) : Outcome :=
  match s.windowManager with
  | none => Outcome.threw s typeError
  | some wm =>
    match wm.windows.find? fun w => w.file.path == path with
    | none => Outcome.ok s
    | some w =>
      (s.onWindowClose w.file).andThen fun s =>
        let remaining : WindowManager :=
          { windows := wm.windows.filter fun w => w.file.path != path }
        Outcome.ok { s with windowManager := some remaining }

/-- Method `HedgeOS.openMusicPlayer` (app.js lines 276-285). -/
def HedgeOS.openMusicPlayer (s : HedgeOS) (clock : Clock) : Outcome :=
  match s.filesystem with
  | none => Outcome.threw s typeError
  | some fs =>
    match fs.getItem "/home/hedge/Applications/music_player.app" with
    | some musicPlayerFile => s.openFile clock musicPlayerFile
    | none => s.callTerminal (TerminalCall.error "Music player not found")

/-- Method `HedgeOS.toggleHidden` (app.js lines 336-354). -/
def HedgeOS.toggleHidden (s : HedgeOS) : Outcome :=
  let s := { s with showHidden := !s.showHidden }
  (s.callTerminal (TerminalCall.logHiddenToggle s.showHidden)).andThen fun s =>
    s.navigate s.currentPath

/-- The handler table that `init` builds (app.js lines 69-76). -/
def HedgeOS.initHandlers (audioManager : Option AudioManager) : Handlers :=
  { markdown := some PlainHandler.MarkdownHandler
    link := some PlainHandler.LinkHandler
    shell := some PlainHandler.ShellHandler
    app := some (AppHandler.new audioManager)
    text := some PlainHandler.TextHandler
    archive := some PlainHandler.ArchiveHandler }

/-- Method `HedgeOS.setupEventListeners` (app.js lines 109-190) on a page that
has (`audioToggle`) or has not an element with id `audioToggle`. It attaches
listeners and writes no field. With the element it calls
`this.audioManager.onStateChange`, which `AudioManager` does not define: the
call throws. -/
def HedgeOS.setupEventListeners (s : HedgeOS) (audioToggle : Bool) : Outcome :=
  if audioToggle then Outcome.threw s typeError
  else Outcome.ok s

/-- Method `HedgeOS.init` (app.js lines 44-104), given the `FileSystem` object
as `load` leaves it, the value `loaded` that `load` resolves to, and whether
the page has an element with id `audioToggle`. The body is a `try` block whose
`catch` only logs, so the call always ends normally. `new Cursor()` writes
none of the fields. -/
def HedgeOS.init (s : HedgeOS) (fs : FileSystem) (loaded : Bool) (audioToggle : Bool) :
    HedgeOS :=
  let s := { s with filesystem := some fs }
  if !loaded then s
  else
    let s := { s with terminal := some [] }
    let body :=
      (s.callTerminal (TerminalCall.system "HedgeOS v1.0 initialized")).andThen fun s =>
      (s.callTerminal (TerminalCall.log "Loading filesystem...")).andThen fun s =>
        let s := { s with
          navigator := some {}
          fileGrid := some {}
          windowManager := some {}
          audioManager := some {} }
        let s := { s with handlers := HedgeOS.initHandlers s.audioManager }
        (s.setupEventListeners audioToggle).andThen fun s =>
        (s.navigate s.currentPath).andThen fun s =>
        (s.callTerminal (TerminalCall.success "System ready")).andThen fun s =>
          s.callTerminal (TerminalCall.system "Welcome to HedgeOS!")
    body.state

/-! ## The tree store, modelled from the specification -/

/-- Modelled from the spec: `FileSystem.getExtension` of `modules/FileSystem.js`,
which is not part of `src/`: the last `.`-delimited segment of the name, empty
when the name has no `.`. -/
def getExtension (name : String) : String :=
  if name.data.contains '.' then
    String.mk (name.data.reverse.takeWhile fun c => c != '.').reverse
  else ""

/-- Modelled from the spec: the Tree Store of `modules/FileSystem.js`, which is
not part of `src/`, over the nodes of a loaded tree. Paths are looked up by
exact string; a node is a child of the folder whose path, followed by `/` and
the node's name, is the node's path; hidden nodes are listed only on request. -/
def treeStore (nodes : List File) : FileSystem :=
  { «exists» := fun path => nodes.any fun n => n.path == path
    isFolder := fun path => nodes.any fun n => n.path == path && n.type == "folder"
    getItem := fun path => nodes.find? fun n => n.path == path
    getContents := fun path includeHidden =>
      nodes.filter fun n => n.path == path ++ "/" ++ n.name && (includeHidden || !n.hidden)
    getExtension := getExtension }

/-! ## Vocabulary of the specification -/

/-- The six file-type tags for which `init` registers a handler. -/
def registeredTags : List String :=
  ["markdown", "link", "shell", "app", "text", "archive"]

/-- The handler registered for a tag: the property `this.handlers[tag]`,
`none` when it is not set. -/
def Handlers.registered (h : Handlers) (tag : String) : Option Handler :=
  if tag = "markdown" then h.markdown.map Handler.plain
  else if tag = "link" then h.link.map Handler.plain
  else if tag = "shell" then h.shell.map Handler.plain
  else if tag = "app" then h.app.map Handler.app
  else if tag = "text" then h.text.map Handler.plain
  else if tag = "archive" then h.archive.map Handler.plain
  else none

/-- All six handlers are registered. -/
def Handlers.allRegistered (h : Handlers) : Prop :=
  ∀ tag ∈ registeredTags, (h.registered tag).isSome = true

/-- The extension table of the dispatch policy, as the specification words it:
extension and the file-type tag it stands for. -/
def extensionTable : List (String × String) :=
  [("md", "markdown"), ("sh", "shell"), ("bash", "shell"), ("txt", "text"),
   ("link", "link"), ("app", "app"), ("tar", "archive"), ("gz", "archive"),
   ("zip", "archive")]

/-- A small tree: the home folder with a visible countdown app, a shell script
named like a markdown file, a file of unknown extension and a hidden note. -/
def sampleNodes : List File :=
  [ { name := "hedge", path := "/home/hedge", type := "folder" },
    { name := "timer.app", path := "/home/hedge/timer.app", appType := some "countdown" },
    { name := "script.md", path := "/home/hedge/script.md", fileType := some "shell" },
    { name := "data.unknownext", path := "/home/hedge/data.unknownext" },
    { name := ".note.md", path := "/home/hedge/.note.md", hidden := true } ]

/-- The application after a successful `init` over `sampleNodes`, on a page
without the element `audioToggle`. -/
def sampleApp : HedgeOS :=
  (HedgeOS.new {} "").init (treeStore sampleNodes) true false

/-- A clock for the examples: the time is 1000 ms, every date string parses
to 86402000 ms (one day and one second and 1000 ms later). -/
def sampleClock : Clock :=
  { now := 1000, parse := fun _ => some 86402000 }

/-- A countdown app that is typed by its extension only: no `fileType`. -/
def timerByExtension : File :=
  { name := "timer.app", path := "/home/hedge/timer.app", appType := some "countdown" }

/-! ## Runs of the application -/

/-- What happens to the application: the call of `init` made when the page is
ready, and the calls of its methods made by listeners, collaborators or
callers. -/
inductive Event where
  | init (loaded : Bool) (audioToggle : Bool)
  | navigate (path : String)
  | onNavigate (path : String)
  | onFileClick (clock : Clock) (item : File)
  | toggleHidden
  | onWindowClose (file : File)
  | openMusicPlayer (clock : Clock)

/-- The state after one event, over the tree store `fs` that `init` loads. -/
def HedgeOS.step (fs : FileSystem) (s : HedgeOS) : Event → HedgeOS
  | Event.init loaded audioToggle => s.init fs loaded audioToggle
  | Event.navigate path => (s.navigate path).state
  | Event.onNavigate path => (s.onNavigate path).state
  | Event.onFileClick clock item => (s.onFileClick clock item).state
  | Event.toggleHidden => s.toggleHidden.state
  | Event.onWindowClose file => (s.onWindowClose file).state
  | Event.openMusicPlayer clock => (s.openMusicPlayer clock).state

/-- The state after a sequence of events, from construction on a page with
the timer table `timers` and the title `title`. -/
def HedgeOS.run (fs : FileSystem) (timers : Timers) (title : String) (events : List Event) :
    HedgeOS :=
  events.foldl (HedgeOS.step fs) (HedgeOS.new timers title)

/-- The path `currentPath` refers to an existing folder node of the tree
store `fs`. -/
def HedgeOS.currentPathIsFolder (fs : FileSystem) (s : HedgeOS) : Prop :=
  fs.exists s.currentPath = true ∧ fs.isFolder s.currentPath = true

/-- The state `s1` has the filesystem and the current path of `s`. -/
def HedgeOS.sameNavigation (s s1 : HedgeOS) : Prop :=
  s1.filesystem = s.filesystem ∧ s1.currentPath = s.currentPath

/-- What every step keeps over the tree store `fs`: the filesystem of the
application is unset or is `fs`, and `currentPath` is a folder of `fs`. -/
def HedgeOS.navigationInvariant (fs : FileSystem) (s : HedgeOS) : Prop :=
  (s.filesystem = none ∨ s.filesystem = some fs) ∧ s.currentPathIsFolder fs

/-! ## Runs of an `AppHandler` -/

/-- A call of one of the two public methods of an `AppHandler`. -/
inductive AppCall where
  | render (clock : Clock) (container : Container) (file : File)
  | cleanup (path : String)

/-- The handler and the timers of the page after one call. -/
def AppHandler.call (state : AppHandler × Timers) : AppCall → AppHandler × Timers
  | AppCall.render clock container file =>
    ((state.1.render clock state.2 container file).handler,
     (state.1.render clock state.2 container file).timers)
  | AppCall.cleanup path => state.1.cleanup state.2 path

/-- The handler and the timers of the page after a sequence of calls. -/
def AppHandler.runCalls (state : AppHandler × Timers) (calls : List AppCall) :
    AppHandler × Timers :=
  calls.foldl AppHandler.call state

/-- No call of the sequence renders a countdown file whose path has an entry
in the intervals map at that moment. -/
def AppHandler.noRerender (state : AppHandler × Timers) : List AppCall → Prop
  | [] => True
  | AppCall.render clock container file :: rest =>
    (file.appType = some "countdown" → IntervalMap.has state.1.intervals file.path = false) ∧
    AppHandler.noRerender (AppHandler.call state (AppCall.render clock container file)) rest
  | AppCall.cleanup path :: rest =>
    AppHandler.noRerender (AppHandler.call state (AppCall.cleanup path)) rest

/-- The bookkeeping of intervals is exact: the live timers of the page are, in
order, the intervals recorded in the map; no path and no interval is recorded
twice; every recorded id has been handed out. -/
def AppHandler.exactBookkeeping (state : AppHandler × Timers) : Prop :=
  (state.2.live.map fun x => x.id) = state.1.intervals.map Prod.snd ∧
  (state.1.intervals.map Prod.fst).Nodup ∧
  (state.1.intervals.map Prod.snd).Nodup ∧
  ∀ v ∈ state.1.intervals.map Prod.snd, v < state.2.nextId

/-- A countdown app typed by its `fileType`. -/
def countdownApp : File :=
  { name := "countdown.app", path := "/home/hedge/countdown.app", fileType := some "app",
    appType := some "countdown" }

/-- A music player app file. -/
def musicPlayerApp : File :=
  { name := "music_player.app", path := "/home/hedge/Applications/music_player.app",
    fileType := some "app", appType := some "audio" }

/-- Two countdowns opened, the first closed and opened again. -/
def reopenCalls : List AppCall :=
  [ AppCall.render sampleClock {} countdownApp,
    AppCall.render sampleClock {} timerByExtension,
    AppCall.cleanup "/home/hedge/countdown.app",
    AppCall.render sampleClock {} countdownApp ]

/-- The same countdown file rendered twice without a cleanup in between. -/
def rerenderCalls : List AppCall :=
  [ AppCall.render sampleClock {} countdownApp,
    AppCall.render sampleClock {} countdownApp ]

/-! ## Dispatch -/

theorem getHandler_of_fileType (s : HedgeOS) (file : File) (tag : String)
    (htag : tag ∈ registeredTags) (hft : file.fileType = some tag) :
    s.getHandler file = Except.ok (s.handlers.registered tag) := by
  simp only [registeredTags, List.mem_cons, List.mem_singleton, List.not_mem_nil, or_false] at htag
  rcases htag with h | h | h | h | h | h <;> subst h <;>
    simp [HedgeOS.getHandler, HedgeOS.handlerByFileType, Handlers.registered, hft]

theorem handlerByFileType_none (s : HedgeOS) (ft : String) (h : ft ∉ registeredTags) :
    s.handlerByFileType ft = none := by
  simp only [registeredTags, List.mem_cons, List.mem_singleton, List.not_mem_nil, or_false,
    not_or] at h
  simp [HedgeOS.handlerByFileType, h]

theorem getHandler_of_unregistered (s : HedgeOS) (fs : FileSystem) (file : File)
    (hfs : s.filesystem = some fs)
    (hft : ∀ tag ∈ registeredTags, file.fileType ≠ some tag) :
    s.getHandler file =
      match s.handlerByExtension (fs.getExtension file.name) with
      | some handler => Except.ok handler
      | none => Except.ok (s.handlers.text.map Handler.plain) := by
  unfold HedgeOS.getHandler
  cases hfile : file.fileType with
  | none => simp [hfs]
  | some ft =>
    have hno : ft ∉ registeredTags := fun hmem => hft ft hmem hfile
    simp [handlerByFileType_none s ft hno, hfs]

theorem handlerByExtension_of_table (s : HedgeOS) (ext tag : String)
    (h : (ext, tag) ∈ extensionTable) :
    s.handlerByExtension ext = some (s.handlers.registered tag) := by
  simp only [extensionTable, List.mem_cons, List.mem_singleton, List.not_mem_nil, or_false,
    Prod.mk.injEq] at h
  rcases h with h | h | h | h | h | h | h | h | h <;> obtain ⟨h1, h2⟩ := h <;> subst h1 <;>
    subst h2 <;> simp [HedgeOS.handlerByExtension, Handlers.registered]

theorem handlerByExtension_none (s : HedgeOS) (ext : String)
    (h : ∀ tag, (ext, tag) ∉ extensionTable) :
    s.handlerByExtension ext = none := by
  have h1 := h "markdown"
  have h2 := h "shell"
  have h3 := h "text"
  have h4 := h "link"
  have h5 := h "app"
  have h6 := h "archive"
  simp only [extensionTable, List.mem_cons, List.mem_singleton, List.not_mem_nil, or_false,
    Prod.mk.injEq, not_or, not_and] at h1 h2 h3 h4 h5 h6
  simp [HedgeOS.handlerByExtension]
  simp_all

theorem init_loaded_filesystem (s0 : HedgeOS) (fs : FileSystem) (audioToggle : Bool) :
    (s0.init fs true audioToggle).filesystem = some fs ∧
    (s0.init fs true audioToggle).handlers = HedgeOS.initHandlers (some {}) := by
  cases audioToggle <;>
    simp only [HedgeOS.init, HedgeOS.callTerminal, Outcome.andThen, HedgeOS.navigate,
      HedgeOS.setupEventListeners, Bool.not_true, Bool.false_eq_true, if_false, if_true]
  · split_ifs <;> simp [Outcome.state, Outcome.andThen, HedgeOS.callTerminal]
  · simp [Outcome.state]

/-- C1. Dispatch priority: a file whose `fileType` is one of the six registered
tags gets the handler registered for that tag, whatever its name is; with all
handlers registered, a file of type `shell` named `script.md` gets the shell
handler and not the markdown handler. -/
theorem getHandler_fileType_priority (s : HedgeOS) (file : File) (tag : String)
    (htag : tag ∈ registeredTags) (hft : file.fileType = some tag) :
    s.getHandler file = Except.ok (s.handlers.registered tag) ∧
    (∀ am, s.handlers = HedgeOS.initHandlers am → tag = "shell" → file.name = "script.md" →
      s.getHandler file = Except.ok (some (Handler.plain PlainHandler.ShellHandler)) ∧
      s.getHandler file ≠ Except.ok (some (Handler.plain PlainHandler.MarkdownHandler))) := by
  have h := getHandler_of_fileType s file tag htag hft
  refine ⟨h, ?_⟩
  intro am hh ht _
  subst ht
  rw [h, hh]
  simp [Handlers.registered, HedgeOS.initHandlers]

/-- Witness of C1 on the sample application: `script.md` of type `shell`. -/
theorem getHandler_fileType_priority_witness :
    "shell" ∈ registeredTags ∧
    sampleApp.getHandler
        { name := "script.md", path := "/home/hedge/script.md", fileType := some "shell" }
      = Except.ok (some (Handler.plain PlainHandler.ShellHandler)) :=
  ⟨by decide, (getHandler_fileType_priority sampleApp _ "shell" (by decide) rfl).1⟩

/-- C2. Extension tier: for a file whose `fileType` is absent or not one of the
six registered tags, `getHandler` returns the handler registered for the tag
the extension table gives to `getExtension(file.name)`. -/
theorem getHandler_extension_tier (s : HedgeOS) (fs : FileSystem) (file : File) (tag : String)
    (hfs : s.filesystem = some fs)
    (hft : ∀ t ∈ registeredTags, file.fileType ≠ some t)
    (hext : (fs.getExtension file.name, tag) ∈ extensionTable) :
    s.getHandler file = Except.ok (s.handlers.registered tag) := by
  rw [getHandler_of_unregistered s fs file hfs hft, handlerByExtension_of_table s _ tag hext]

/-- Witness of C2 on the sample application: `timer.app` without `fileType`. -/
theorem getHandler_extension_tier_witness :
    sampleApp.filesystem = some (treeStore sampleNodes) ∧
    ((treeStore sampleNodes).getExtension "timer.app", "app") ∈ extensionTable ∧
    sampleApp.getHandler timerByExtension
      = Except.ok (some (Handler.app (AppHandler.new (some {})))) :=
  ⟨rfl, by decide,
    getHandler_extension_tier sampleApp (treeStore sampleNodes) timerByExtension "app" rfl
      (by simp [timerByExtension]) (by decide)⟩

/-- C3. Dispatch never fails: `init` registers the six handlers; with them
registered and the filesystem set, `getHandler` returns one of the six for
every file, without an exception; a file with no registered `fileType` whose
extension is not in the extension table gets the text handler. -/
theorem getHandler_total_with_text_fallback :
    (∀ (s0 : HedgeOS) (fs : FileSystem) (audioToggle : Bool),
      (s0.init fs true audioToggle).filesystem = some fs ∧
      (s0.init fs true audioToggle).handlers.allRegistered) ∧
    (∀ (s : HedgeOS) (fs : FileSystem) (file : File),
      s.filesystem = some fs → s.handlers.allRegistered →
      ∃ h tag, tag ∈ registeredTags ∧ s.handlers.registered tag = some h ∧
        s.getHandler file = Except.ok (some h)) ∧
    (∀ (s : HedgeOS) (fs : FileSystem) (file : File),
      s.filesystem = some fs →
      (∀ t ∈ registeredTags, file.fileType ≠ some t) →
      (∀ t, (fs.getExtension file.name, t) ∉ extensionTable) →
      s.getHandler file = Except.ok (s.handlers.registered "text")) := by
  refine ⟨?_, ?_, ?_⟩
  · intro s0 fs audioToggle
    obtain ⟨h1, h2⟩ := init_loaded_filesystem s0 fs audioToggle
    refine ⟨h1, ?_⟩
    rw [h2]
    intro tag htag
    simp only [registeredTags, List.mem_cons, List.mem_singleton, List.not_mem_nil,
      or_false] at htag
    rcases htag with h | h | h | h | h | h <;> subst h <;>
      simp [Handlers.registered, HedgeOS.initHandlers]
  · intro s fs file hfs hall
    have key : ∀ tag, tag ∈ registeredTags →
        s.getHandler file = Except.ok (s.handlers.registered tag) →
        ∃ h tag, tag ∈ registeredTags ∧ s.handlers.registered tag = some h ∧
          s.getHandler file = Except.ok (some h) := by
      intro tag htag hget
      obtain ⟨h, hh⟩ := Option.isSome_iff_exists.mp (hall tag htag)
      exact ⟨h, tag, htag, hh, by rw [hget, hh]⟩
    by_cases hreg : ∃ t ∈ registeredTags, file.fileType = some t
    · obtain ⟨t, ht, hft⟩ := hreg
      exact key t ht (getHandler_of_fileType s file t ht hft)
    · have hft : ∀ t ∈ registeredTags, file.fileType ≠ some t := fun t ht h => hreg ⟨t, ht, h⟩
      by_cases htab : ∃ t, (fs.getExtension file.name, t) ∈ extensionTable
      · obtain ⟨t, ht⟩ := htab
        have hmem : t ∈ registeredTags := by
          simp only [extensionTable, List.mem_cons, List.mem_singleton, List.not_mem_nil,
            or_false, Prod.mk.injEq] at ht
          rcases ht with h | h | h | h | h | h | h | h | h <;> rw [h.2] <;> decide
        refine key t hmem ?_
        rw [getHandler_of_unregistered s fs file hfs hft, handlerByExtension_of_table s _ t ht]
      · have hno : ∀ t, (fs.getExtension file.name, t) ∉ extensionTable :=
          fun t ht => htab ⟨t, ht⟩
        refine key "text" (by decide) ?_
        rw [getHandler_of_unregistered s fs file hfs hft, handlerByExtension_none s _ hno]
        simp [Handlers.registered]
  · intro s fs file hfs hft hno
    rw [getHandler_of_unregistered s fs file hfs hft, handlerByExtension_none s _ hno]
    simp [Handlers.registered]

/-- Witness of C3 on the sample application: `data.unknownext` without
`fileType` gets the text handler. -/
theorem getHandler_total_with_text_fallback_witness :
    sampleApp.filesystem = some (treeStore sampleNodes) ∧
    sampleApp.getHandler { name := "data.unknownext", path := "/home/hedge/data.unknownext" }
      = Except.ok (some (Handler.plain PlainHandler.TextHandler)) :=
  ⟨rfl, getHandler_total_with_text_fallback.2.2 sampleApp (treeStore sampleNodes) _ rfl
    (by simp)
    (by
      intro t h
      have e : (treeStore sampleNodes).getExtension "data.unknownext" = "unknownext" := by decide
      simp [extensionTable, e] at h)⟩

/-! ## Interval bookkeeping of `AppHandler` -/

theorem IntervalMap.has_set (m : IntervalMap) (key : String) (value : Nat) :
    IntervalMap.has (IntervalMap.set m key value) key = true := by
  unfold IntervalMap.set
  split
  · rename_i h
    simp only [IntervalMap.has, List.any_eq_true] at h ⊢
    obtain ⟨e, he, hk⟩ := h
    exact ⟨(key, value), List.mem_map.mpr ⟨e, he, by simp [hk]⟩, by simp⟩
  · simp [IntervalMap.has]

theorem IntervalMap.get_replace (m : IntervalMap) (key : String) (value : Nat)
    (h : IntervalMap.has m key = true) :
    IntervalMap.get (m.map fun e => if e.1 == key then (key, value) else e) key = some value := by
  induction m with
  | nil => simp [IntervalMap.has] at h
  | cons e m ih =>
    by_cases hk : e.1 = key
    · simp [IntervalMap.get, List.find?, hk]
    · have hrest : IntervalMap.has m key = true := by simpa [IntervalMap.has, hk] using h
      have he : (if (e.1 == key) = true then (key, value) else e) = e := by simp [hk]
      simp only [IntervalMap.get, List.map_cons] at ih ⊢
      rw [he, List.find?_cons_of_neg _ (by simp [hk])]
      exact ih hrest

theorem IntervalMap.get_set (m : IntervalMap) (key : String) (value : Nat) :
    IntervalMap.get (IntervalMap.set m key value) key = some value := by
  unfold IntervalMap.set
  split
  · rename_i h
    exact IntervalMap.get_replace m key value h
  · rename_i h
    simp only [IntervalMap.has, List.any_eq_true, not_exists, not_and, Bool.not_eq_true] at h
    simp only [IntervalMap.get]
    rw [List.find?_append]
    have : List.find? (fun e => e.1 == key) m = none := by
      rw [List.find?_eq_none]
      intro e he
      simpa using h e he
    simp [this]

theorem IntervalMap.has_delete (m : IntervalMap) (key : String) :
    IntervalMap.has (IntervalMap.delete m key) key = false := by
  simp [IntervalMap.has, IntervalMap.delete]

theorem IntervalMap.delete_of_not_has (m : IntervalMap) (key : String)
    (h : IntervalMap.has m key = false) : IntervalMap.delete m key = m := by
  simp [IntervalMap.has, IntervalMap.delete] at h ⊢
  exact h

theorem AppHandler.cleanup_of_not_has (h : AppHandler) (timers : Timers) (path : String)
    (hno : IntervalMap.has h.intervals path = false) :
    h.cleanup timers path = (h, timers) := by
  simp [AppHandler.cleanup, hno]

theorem AppHandler.cleanup_intervals (h : AppHandler) (timers : Timers) (path : String) :
    IntervalMap.has (h.cleanup timers path).1.intervals path = false := by
  unfold AppHandler.cleanup
  split
  · exact IntervalMap.has_delete _ _
  · rename_i hno
    simpa using hno

theorem AppHandler.render_countdown (h : AppHandler) (clock : Clock) (timers : Timers)
    (container : Container) (file : File) (hat : file.appType = some "countdown") :
    h.render clock timers container file
      = h.renderCountdown clock timers (container.addClass "app") file := by
  simp [AppHandler.render, orElse, hat]

theorem AppHandler.cleanup_after_renderCountdown (h : AppHandler) (clock : Clock)
    (timers : Timers) (container : Container) (file : File) :
    ((h.renderCountdown clock timers container file).handler.cleanup
        (h.renderCountdown clock timers container file).timers file.path).2.live
      = timers.live.filter fun x => x.id != timers.nextId := by
  simp only [AppHandler.renderCountdown, AppHandler.cleanup, IntervalMap.has_set,
    IntervalMap.get_set, if_true, Timers.setInterval, Timers.clearInterval]
  simp [List.filter_append]

/-- The sibling path of C4: a countdown file whose `fileType` is `app` is
cleaned up by `onWindowClose`: the interval its render started is cancelled
and its path has no entry in `intervals`. -/
theorem onWindowClose_cancels_countdown_of_app_fileType (s : HedgeOS) (t : Terminal)
    (app : AppHandler) (clock : Clock) (container : Container) (file : File)
    (hterm : s.terminal = some t) (hft : file.fileType = some "app")
    (hat : file.appType = some "countdown") :
    ((s.renderWith clock (Handler.app app) container file).1.onWindowClose file).state.timers.live
      = (s.timers.live.filter fun x => x.id != s.timers.nextId) ∧
    ∃ a, ((s.renderWith clock (Handler.app app) container file).1.onWindowClose file).state.handlers.app
        = some a ∧ IntervalMap.has a.intervals file.path = false := by
  simp only [HedgeOS.renderWith, HedgeOS.onWindowClose, HedgeOS.callTerminal, hterm,
    Outcome.andThen, hft, if_true, Outcome.state, AppHandler.render_countdown _ _ _ _ _ hat]
  exact ⟨AppHandler.cleanup_after_renderCountdown _ _ _ _ _, _, rfl,
    AppHandler.cleanup_intervals _ _ _⟩

/-- C4, at the failing input: the sample application sends `timer.app`
(no `fileType`, `appType` countdown) to the app handler by its extension; the
render starts interval 1; after `onWindowClose` the interval is still pending
and the path still has its entry in `intervals`. The same holds when the file
is opened by `onFileClick` and its window is closed by the window manager. -/
theorem countdown_by_extension_survives_close :
    sampleApp.getHandler timerByExtension
      = Except.ok (some (Handler.app (AppHandler.new (some {})))) ∧
    sampleApp.timers.live = [] ∧
    ((sampleApp.renderWith sampleClock (Handler.app (AppHandler.new (some {}))) {}
        timerByExtension).1.timers.live.map fun x => x.id) = [1] ∧
    (((sampleApp.renderWith sampleClock (Handler.app (AppHandler.new (some {}))) {}
        timerByExtension).1.onWindowClose timerByExtension).state.timers.live.map
          fun x => x.id) = [1] ∧
    (((sampleApp.renderWith sampleClock (Handler.app (AppHandler.new (some {}))) {}
        timerByExtension).1.onWindowClose timerByExtension).state.handlers.app.map
          fun a => a.intervals) = some [("/home/hedge/timer.app", 1)] ∧
    ((((sampleApp.onFileClick sampleClock timerByExtension).state.windowManagerClose
        "/home/hedge/timer.app").state.timers.live.map fun x => x.id) = [1]) := by
  refine ⟨rfl, ?_, ?_, ?_, ?_, ?_⟩ <;> decide

/-! ## The countdown -/

/-- The first recomputation of `renderCountdown` writes where
`document.getElementById` finds the countdown ids: into the markup just
written when no countdown markup precedes the container, and otherwise into
the preceding markup, the markup just written keeping `--`. -/
theorem AppHandler.renderCountdown_first_update (a : AppHandler) (clock : Clock)
    (timers : Timers) (c : Container) (file : File) :
    (c.precedingCountdown = none →
      (a.renderCountdown clock timers c file).container.content
        = Content.countdown
            (updateCountdown clock.now
              (clock.parse (orElse (file.config.getD {}).targetDate "December 31, 2025"))
              { title := orElse (file.config.getD {}).title "Countdown"
                message := orElse (file.config.getD {}).message "Time's up!" })) ∧
    (∀ first, c.precedingCountdown = some first →
      (a.renderCountdown clock timers c file).container.content
        = Content.countdown
            { title := orElse (file.config.getD {}).title "Countdown"
              message := orElse (file.config.getD {}).message "Time's up!" } ∧
      (a.renderCountdown clock timers c file).container.precedingCountdown
        = some (updateCountdown clock.now
            (clock.parse (orElse (file.config.getD {}).targetDate "December 31, 2025"))
            first)) := by
  constructor
  · intro hc
    simp only [AppHandler.renderCountdown, hc]
  · intro first hc
    simp only [AppHandler.renderCountdown, hc, and_self]

/-- C5. Countdown expiry clamp: when the remaining duration `target - now` is
zero or negative, one recomputation writes `0` in all four units and makes
the expiry message visible, whatever they showed before; so it does when the
destination is the current time. -/
theorem updateCountdown_expired (now target : Int) (d : CountdownDisplay)
    (h : target - now ≤ 0) :
    updateCountdown now (some target) d
      = { d with days := "0", hours := "0", minutes := "0", seconds := "0",
                 messageDisplay := "block" } ∧
    updateCountdown now (some now) d
      = { d with days := "0", hours := "0", minutes := "0", seconds := "0",
                 messageDisplay := "block" } := by
  constructor
  · simp [updateCountdown, h]
  · simp [updateCountdown]

/-- Witness of C5: the destination is the current time. -/
theorem updateCountdown_expired_witness :
    (5000 : Int) - 5000 ≤ 0 ∧
    updateCountdown 5000 (some 5000) { title := "Countdown", message := "Time's up!" }
      = { title := "Countdown", message := "Time's up!", days := "0", hours := "0",
          minutes := "0", seconds := "0", messageDisplay := "block" } :=
  ⟨by decide, (updateCountdown_expired 5000 5000 _ (by decide)).1⟩

/-- C6. Countdown breakdown: for a positive remaining duration `diff` in
milliseconds the recomputation yields hours below 24, minutes and seconds
below 60, none negative, with
`days*86400 + hours*3600 + minutes*60 + seconds = floor(diff / 1000)`; these
are the values written (hours, minutes and seconds padded to two digits) and
the expiry message is left as it was; one day and one second give 1, 0, 0, 1. -/
theorem countdownUnits_breakdown (diff : Int) (h : 0 < diff) :
    0 ≤ (countdownUnits diff).days ∧
    0 ≤ (countdownUnits diff).hours ∧ (countdownUnits diff).hours < 24 ∧
    0 ≤ (countdownUnits diff).minutes ∧ (countdownUnits diff).minutes < 60 ∧
    0 ≤ (countdownUnits diff).seconds ∧ (countdownUnits diff).seconds < 60 ∧
    (countdownUnits diff).days * 86400 + (countdownUnits diff).hours * 3600
      + (countdownUnits diff).minutes * 60 + (countdownUnits diff).seconds = diff / 1000 ∧
    (∀ (now target : Int) (d : CountdownDisplay), target - now = diff →
      updateCountdown now (some target) d
        = { d with
            days := toString (countdownUnits diff).days
            hours := padStart (toString (countdownUnits diff).hours) 2 '0'
            minutes := padStart (toString (countdownUnits diff).minutes) 2 '0'
            seconds := padStart (toString (countdownUnits diff).seconds) 2 '0' }) ∧
    countdownUnits 86401000 = { days := 1, hours := 0, minutes := 0, seconds := 1 } := by
  have h0 : (0 : Int) ≤ diff := le_of_lt h
  have e1 : diff.tmod (1000 * 60 * 60 * 24) = diff % 86400000 :=
    Int.tmod_eq_emod h0 (by norm_num)
  have e2 : diff.tmod (1000 * 60 * 60) = diff % 3600000 :=
    Int.tmod_eq_emod h0 (by norm_num)
  have e3 : diff.tmod (1000 * 60) = diff % 60000 :=
    Int.tmod_eq_emod h0 (by norm_num)
  have hu : countdownUnits diff
      = { days := diff / 86400000, hours := diff % 86400000 / 3600000,
          minutes := diff % 3600000 / 60000, seconds := diff % 60000 / 1000 } := by
    simp only [countdownUnits, e1, e2, e3]
    norm_num
  have hupd : ∀ (now target : Int) (d : CountdownDisplay), target - now = diff →
      updateCountdown now (some target) d
        = { d with
            days := toString (countdownUnits diff).days
            hours := padStart (toString (countdownUnits diff).hours) 2 '0'
            minutes := padStart (toString (countdownUnits diff).minutes) 2 '0'
            seconds := padStart (toString (countdownUnits diff).seconds) 2 '0' } := by
    intro now target d hd
    have hpos : ¬ diff ≤ 0 := by omega
    simp only [updateCountdown, hd]
    rw [if_neg hpos]
  refine ⟨?_, ?_, ?_, ?_, ?_, ?_, ?_, ?_, hupd, by decide⟩ <;> rw [hu] <;> simp only <;> omega

/-- Witness of C6: one day and one second. -/
theorem countdownUnits_breakdown_witness :
    (0 : Int) < 86401000 ∧
    countdownUnits 86401000 = { days := 1, hours := 0, minutes := 0, seconds := 1 } ∧
    updateCountdown 1000 (some 86402000) { title := "Countdown", message := "Time's up!" }
      = { title := "Countdown", message := "Time's up!", days := "1", hours := "00",
          minutes := "00", seconds := "01", messageDisplay := "none" } :=
  ⟨by decide, (countdownUnits_breakdown 86401000 (by decide)).2.2.2.2.2.2.2.2.2,
    ((countdownUnits_breakdown 86401000 (by decide)).2.2.2.2.2.2.2.2.1 1000 86402000 _
      (by decide)).trans (by decide)⟩

/-! ## Cleanup and the unknown app type -/

/-- C7. Cleanup is idempotent: on a path with no recorded timer `cleanup`
returns the handler and the timers as they were; a second `cleanup` of the
same path leaves the intervals map and the live timers as the first left
them. -/
theorem cleanup_idempotent (h : AppHandler) (timers : Timers) (path : String) :
    (IntervalMap.has h.intervals path = false → h.cleanup timers path = (h, timers)) ∧
    (h.cleanup timers path).1.cleanup (h.cleanup timers path).2 path = h.cleanup timers path :=
  ⟨AppHandler.cleanup_of_not_has h timers path,
    AppHandler.cleanup_of_not_has _ _ path (AppHandler.cleanup_intervals h timers path)⟩

/-- Witness of C7: cleanup of an unknown path with another timer pending, and
cleanup twice of a recorded path. -/
theorem cleanup_idempotent_witness :
    IntervalMap.has [("/a.app", 1)] "/b.app" = false ∧
    AppHandler.cleanup { audioManager := none, intervals := [("/a.app", 1)] }
        { nextId := 2, live := [⟨1, Callback.updateCountdown none, 1000⟩] } "/b.app"
      = ({ audioManager := none, intervals := [("/a.app", 1)] },
         { nextId := 2, live := [⟨1, Callback.updateCountdown none, 1000⟩] }) ∧
    AppHandler.cleanup { audioManager := none, intervals := [("/a.app", 1)] }
        { nextId := 2, live := [⟨1, Callback.updateCountdown none, 1000⟩] } "/a.app"
      = ({ audioManager := none, intervals := [] }, { nextId := 2, live := [] }) :=
  ⟨by decide,
    (cleanup_idempotent { audioManager := none, intervals := [("/a.app", 1)] }
      { nextId := 2, live := [⟨1, Callback.updateCountdown none, 1000⟩] } "/b.app").1 (by decide),
    by decide⟩

/-- C10. Unrecognized app type is harmless: for a file whose `appType` is
absent or is neither `countdown` nor `audio`, `render` returns with the
placeholder of `renderUnknown` as content, the handler (and its intervals
map) and the timers of the page as they were. -/
theorem render_unknown_appType (h : AppHandler) (clock : Clock) (timers : Timers)
    (container : Container) (file : File)
    (hc : file.appType ≠ some "countdown") (ha : file.appType ≠ some "audio") :
    h.render clock timers container file
      = { handler := h, timers := timers
          container := { container.addClass "app" with
            content := Content.unknownApp (orElse file.appType "none") } } := by
  unfold AppHandler.render
  cases hat : file.appType with
  | none => simp [orElse, AppHandler.renderUnknown, hat]
  | some t =>
    rw [hat] at hc ha
    have hc1 : t ≠ "countdown" := fun e => hc (by rw [e])
    have ha1 : t ≠ "audio" := fun e => ha (by rw [e])
    by_cases ht : t = ""
    · simp [orElse, AppHandler.renderUnknown, hat, ht]
    · simp [orElse, AppHandler.renderUnknown, hat, ht, hc1, ha1]

/-- Witness of C10: an app file of type `settings` rendered while another
countdown is running. -/
theorem render_unknown_appType_witness :
    (some "settings" : Option String) ≠ some "countdown" ∧
    AppHandler.render { audioManager := none, intervals := [("/a.app", 1)] } sampleClock
        { nextId := 2, live := [⟨1, Callback.updateCountdown none, 1000⟩] } {}
        { name := "settings.app", path := "/settings.app", fileType := some "app",
          appType := some "settings" }
      = { handler := { audioManager := none, intervals := [("/a.app", 1)] }
          timers := { nextId := 2, live := [⟨1, Callback.updateCountdown none, 1000⟩] }
          container := { classList := ["app"], content := Content.unknownApp "settings" } } :=
  ⟨by decide,
    (render_unknown_appType _ sampleClock _ {} _ (by decide) (by decide)).trans (by decide)⟩

/-! ## Navigation -/

theorem callTerminal_sameNavigation (s : HedgeOS) (call : TerminalCall) :
    s.sameNavigation (s.callTerminal call).state := by
  unfold HedgeOS.callTerminal
  cases s.terminal <;> exact ⟨rfl, rfl⟩

theorem andThen_sameNavigation (s : HedgeOS) (o : Outcome) (next : HedgeOS → Outcome)
    (ho : s.sameNavigation o.state)
    (hnext : ∀ s1 : HedgeOS, s1.sameNavigation (next s1).state) :
    s.sameNavigation (o.andThen next).state := by
  cases o with
  | ok s1 =>
    obtain ⟨h1, h2⟩ := hnext s1
    exact ⟨h1.trans ho.1, h2.trans ho.2⟩
  | threw s1 e => exact ho

theorem renderWith_sameNavigation (s : HedgeOS) (clock : Clock) (handler : Handler)
    (container : Container) (file : File) :
    s.sameNavigation (s.renderWith clock handler container file).1 := by
  cases handler <;> exact ⟨rfl, rfl⟩

theorem windowManagerOpen_sameNavigation (s : HedgeOS) (clock : Clock) (file : File)
    (handler : Option Handler) :
    s.sameNavigation (s.windowManagerOpen clock file handler).state := by
  unfold HedgeOS.windowManagerOpen
  cases s.windowManager with
  | none => exact ⟨rfl, rfl⟩
  | some wm =>
    dsimp only
    split
    · exact ⟨rfl, rfl⟩
    · cases handler with
      | none => exact ⟨rfl, rfl⟩
      | some handler => exact renderWith_sameNavigation s clock handler _ file

theorem openFile_sameNavigation (s : HedgeOS) (clock : Clock) (file : File) :
    s.sameNavigation (s.openFile clock file).state := by
  unfold HedgeOS.openFile
  refine andThen_sameNavigation s _ _ (callTerminal_sameNavigation s _) ?_
  intro s1
  cases s1.getHandler file with
  | error e => exact ⟨rfl, rfl⟩
  | ok handler => exact windowManagerOpen_sameNavigation s1 clock file handler

theorem onWindowClose_sameNavigation (s : HedgeOS) (file : File) :
    s.sameNavigation (s.onWindowClose file).state := by
  unfold HedgeOS.onWindowClose
  refine andThen_sameNavigation s _ _ (callTerminal_sameNavigation s _) ?_
  intro s1
  split
  · cases s1.handlers.app <;> exact ⟨rfl, rfl⟩
  · exact ⟨rfl, rfl⟩

theorem openMusicPlayer_sameNavigation (s : HedgeOS) (clock : Clock) :
    s.sameNavigation (s.openMusicPlayer clock).state := by
  unfold HedgeOS.openMusicPlayer
  cases s.filesystem with
  | none => exact ⟨rfl, rfl⟩
  | some fs =>
    dsimp only
    cases fs.getItem "/home/hedge/Applications/music_player.app" with
    | none => exact callTerminal_sameNavigation s _
    | some f => exact openFile_sameNavigation s clock f

theorem navigationInvariant_of_same (fs : FileSystem) (s s1 : HedgeOS)
    (h : s.navigationInvariant fs) (hs : s.sameNavigation s1) : s1.navigationInvariant fs := by
  unfold HedgeOS.navigationInvariant HedgeOS.currentPathIsFolder at *
  rw [hs.1, hs.2]
  exact h

theorem navigate_result (s : HedgeOS) (path : String) :
    (s.navigate path).state.filesystem = s.filesystem ∧
    ((s.navigate path).state.currentPath = s.currentPath ∨
      ∃ fs, s.filesystem = some fs ∧ fs.exists path = true ∧ fs.isFolder path = true ∧
        (s.navigate path).state.currentPath = path) := by
  unfold HedgeOS.navigate
  cases hfs : s.filesystem with
  | none => exact ⟨hfs, Or.inl rfl⟩
  | some fs =>
    dsimp only
    by_cases hex : fs.exists path = true
    · by_cases hfo : fs.isFolder path = true
      · simp only [hex, hfo, Bool.not_true, Bool.false_eq_true, if_false]
        refine ⟨?_, Or.inr ⟨fs, rfl, hex, hfo, ?_⟩⟩ <;>
          simp only [HedgeOS.callTerminal] <;>
          cases s.terminal <;>
          simp only [Outcome.andThen] <;>
          (try cases s.navigator) <;>
          (try dsimp only) <;>
          (try cases s.fileGrid) <;>
          rfl
      · simp only [hex, hfo, Bool.not_true, Bool.false_eq_true, if_false, Bool.not_false, if_true]
        have h := callTerminal_sameNavigation s (TerminalCall.error s!"Not a folder: {path}")
        exact ⟨h.1.trans hfs, Or.inl h.2⟩
    · simp only [hex, Bool.not_false, if_true]
      have h := callTerminal_sameNavigation s (TerminalCall.error s!"Path not found: {path}")
      exact ⟨h.1.trans hfs, Or.inl h.2⟩

theorem navigate_navigationInvariant (fs : FileSystem) (s : HedgeOS) (path : String)
    (h : s.navigationInvariant fs) : (s.navigate path).state.navigationInvariant fs := by
  obtain ⟨h1, h2⟩ := navigate_result s path
  rcases h2 with h2 | ⟨fs1, hfs1, hex, hfo, hp⟩
  · exact navigationInvariant_of_same fs s _ h ⟨h1, h2⟩
  · have hfs : fs1 = fs := by
      rcases h.1 with hn | hs
      · rw [hn] at hfs1
        cases hfs1
      · rw [hs] at hfs1
        exact (Option.some.inj hfs1).symm
    subst hfs
    refine ⟨?_, ?_, ?_⟩
    · rw [h1]
      exact h.1
    · rw [hp]
      exact hex
    · rw [hp]
      exact hfo

theorem andThen_navigationInvariant (fs : FileSystem) (o : Outcome) (next : HedgeOS → Outcome)
    (ho : o.state.navigationInvariant fs)
    (hnext : ∀ s1 : HedgeOS, s1.navigationInvariant fs → (next s1).state.navigationInvariant fs) :
    (o.andThen next).state.navigationInvariant fs := by
  cases o with
  | ok s1 => exact hnext s1 ho
  | threw s1 e => exact ho

theorem init_navigationInvariant (fs : FileSystem) (s : HedgeOS) (loaded audioToggle : Bool)
    (h : s.navigationInvariant fs) :
    (s.init fs loaded audioToggle).navigationInvariant fs := by
  have hbase : ∀ s1 : HedgeOS, s1.filesystem = some fs → s1.currentPath = s.currentPath →
      s1.navigationInvariant fs := by
    intro s1 hf hp
    refine ⟨Or.inr hf, ?_⟩
    unfold HedgeOS.currentPathIsFolder
    rw [hp]
    exact h.2
  unfold HedgeOS.init
  cases loaded with
  | false => exact hbase _ rfl rfl
  | true =>
    simp only [Bool.not_true, Bool.false_eq_true, if_false, HedgeOS.callTerminal, Outcome.andThen]
    refine andThen_navigationInvariant fs _ _ ?_ ?_
    · unfold HedgeOS.setupEventListeners
      cases audioToggle <;> exact hbase _ rfl rfl
    intro s0 hs0
    refine andThen_navigationInvariant fs _ _ (navigate_navigationInvariant fs _ _ hs0) ?_
    intro s1 hs1
    cases ht : s1.terminal with
    | none => exact hs1
    | some t =>
      simp only [Outcome.andThen]
      exact navigationInvariant_of_same fs s1 _ hs1 ⟨rfl, rfl⟩

theorem step_navigationInvariant (fs : FileSystem) (s : HedgeOS) (e : Event)
    (h : s.navigationInvariant fs) : (s.step fs e).navigationInvariant fs := by
  cases e with
  | init loaded audioToggle => exact init_navigationInvariant fs s loaded audioToggle h
  | navigate path => exact navigate_navigationInvariant fs s path h
  | onNavigate path => exact navigate_navigationInvariant fs s path h
  | onFileClick clock item =>
    simp only [HedgeOS.step, HedgeOS.onFileClick]
    split
    · exact navigate_navigationInvariant fs s _ h
    · exact navigationInvariant_of_same fs s _ h (openFile_sameNavigation s clock item)
  | toggleHidden =>
    simp only [HedgeOS.step, HedgeOS.toggleHidden]
    refine andThen_navigationInvariant fs _ _ ?_ ?_
    · exact navigationInvariant_of_same fs _ _
        (navigationInvariant_of_same fs s { s with showHidden := !s.showHidden } h ⟨rfl, rfl⟩)
        (callTerminal_sameNavigation _ _)
    · intro s1 hs1
      exact navigate_navigationInvariant fs s1 _ hs1
  | onWindowClose file =>
    exact navigationInvariant_of_same fs s _ h (onWindowClose_sameNavigation s file)
  | openMusicPlayer clock =>
    exact navigationInvariant_of_same fs s _ h (openMusicPlayer_sameNavigation s clock)

theorem foldl_navigationInvariant (fs : FileSystem) (events : List Event) (s : HedgeOS)
    (h : s.navigationInvariant fs) :
    (events.foldl (HedgeOS.step fs) s).navigationInvariant fs := by
  induction events generalizing s with
  | nil => exact h
  | cons e rest ih => exact ih _ (step_navigationInvariant fs s e h)

/-- C8. Navigation failure leaves the state unchanged: in an application
whose filesystem and terminal are set, `navigate` to a path that the tree
store does not know, or that is not a folder, ends normally, reports the
error on the terminal (`Path not found` for an unknown path, `Not a folder`
for a file) and changes nothing else: `currentPath` is as before. -/
theorem navigate_failure_keeps_currentPath (s : HedgeOS) (fs : FileSystem) (t : Terminal)
    (path : String) (hfs : s.filesystem = some fs) (ht : s.terminal = some t)
    (hbad : fs.exists path = false ∨ fs.isFolder path = false) :
    (s.navigate path).state.currentPath = s.currentPath ∧
    (s.navigate path).hasThrown = false ∧
    (fs.exists path = false →
      s.navigate path = Outcome.ok
        { s with terminal := some (t ++ [TerminalCall.error s!"Path not found: {path}"]) }) ∧
    (fs.exists path = true → fs.isFolder path = false →
      s.navigate path = Outcome.ok
        { s with terminal := some (t ++ [TerminalCall.error s!"Not a folder: {path}"]) }) := by
  have hnot : fs.exists path = false →
      s.navigate path = Outcome.ok
        { s with terminal := some (t ++ [TerminalCall.error s!"Path not found: {path}"]) } := by
    intro hex
    simp [HedgeOS.navigate, hfs, hex, HedgeOS.callTerminal, ht]
  have hfile : fs.exists path = true → fs.isFolder path = false →
      s.navigate path = Outcome.ok
        { s with terminal := some (t ++ [TerminalCall.error s!"Not a folder: {path}"]) } := by
    intro hex hfo
    simp [HedgeOS.navigate, hfs, hex, hfo, HedgeOS.callTerminal, ht]
  refine ⟨?_, ?_, hnot, hfile⟩
  · cases hex : fs.exists path with
    | false => rw [hnot hex]; rfl
    | true =>
      have hfo : fs.isFolder path = false := by
        rcases hbad with h | h
        · rw [hex] at h
          cases h
        · exact h
      rw [hfile hex hfo]; rfl
  · cases hex : fs.exists path with
    | false => rw [hnot hex]; rfl
    | true =>
      have hfo : fs.isFolder path = false := by
        rcases hbad with h | h
        · rw [hex] at h
          cases h
        · exact h
      rw [hfile hex hfo]; rfl

/-- Witness of C8 on the sample application: an unknown path, and the path of
a file. -/
theorem navigate_failure_keeps_currentPath_witness :
    (treeStore sampleNodes).exists "/does/not/exist" = false ∧
    (sampleApp.navigate "/does/not/exist").state.currentPath = "/home/hedge" ∧
    (sampleApp.navigate "/home/hedge/script.md").state.currentPath = "/home/hedge" ∧
    ((sampleApp.navigate "/does/not/exist").state.terminal.map fun t => t.getLast?)
      = some (some (TerminalCall.error "Path not found: /does/not/exist")) :=
  ⟨by decide,
    (navigate_failure_keeps_currentPath sampleApp (treeStore sampleNodes) _ "/does/not/exist"
      rfl rfl (Or.inl (by decide))).1,
    (navigate_failure_keeps_currentPath sampleApp (treeStore sampleNodes) _
      "/home/hedge/script.md" rfl rfl (Or.inr (by decide))).1,
    by decide⟩

/-- C9. Navigation-state invariant: over an immutable tree as the tree store
holds it, whose root is the folder at the fixed home path `/home/hedge`, after
every sequence of events from construction (`init` on either page,
`navigate`, `onNavigate`, `onFileClick`, `toggleHidden`, and also
`onWindowClose` and `openMusicPlayer`), `currentPath` refers to an existing
folder node of the tree store. -/
theorem currentPath_is_folder_given_home (fs : FileSystem) (timers : Timers) (title : String)
    (events : List Event)
    (hex : fs.exists "/home/hedge" = true) (hfo : fs.isFolder "/home/hedge" = true) :
    (HedgeOS.run fs timers title events).currentPathIsFolder fs :=
  (foldl_navigationInvariant fs events (HedgeOS.new timers title)
    ⟨Or.inl rfl, hex, hfo⟩).2

/-- Witness of C9: the sample tree, a run that fails to navigate, toggles
hidden files and opens a file. -/
theorem currentPath_is_folder_given_home_witness :
    (treeStore sampleNodes).exists "/home/hedge" = true ∧
    (treeStore sampleNodes).isFolder "/home/hedge" = true ∧
    (HedgeOS.run (treeStore sampleNodes) {} ""
      [Event.init true false, Event.navigate "/does/not/exist", Event.toggleHidden,
       Event.onFileClick sampleClock timerByExtension]).currentPathIsFolder
        (treeStore sampleNodes) :=
  ⟨by decide, by decide,
    currentPath_is_folder_given_home (treeStore sampleNodes) {} "" _ (by decide) (by decide)⟩

/-! ## The audio app -/

theorem AudioManager.updateUI_playing (a : AudioManager) (isPlaying : Bool) :
    (a.updateUI isPlaying).playing = a.playing ∧
    (a.updateUI isPlaying).audioPaused = a.audioPaused := by
  unfold AudioManager.updateUI
  cases a.button <;> exact ⟨rfl, rfl⟩

theorem AudioManager.toggle_isPlaying (a : AudioManager) (allowed : Bool) :
    (a.toggle allowed).isPlaying = false := by
  unfold AudioManager.toggle
  cases hp : a.playing with
  | true =>
    simp only [if_true, AudioManager.isPlaying, AudioManager.pause]
    rw [(AudioManager.updateUI_playing _ false).1]
    rfl
  | false =>
    simp [AudioManager.isPlaying, AudioManager.play, hp]

/-- The first updateUI of `renderAudioPlayer` is the closure `audioUpdateUI`
on the markup just written. -/
theorem AppHandler.renderAudioPlayer_view (h : AppHandler) (am : AudioManager)
    (timers : Timers) (container : Container) (file : File)
    (ham : h.audioManager = some am) :
    (h.renderAudioPlayer timers container file).container.content
      = Content.audioPlayer (AppHandler.audioUpdateUI am
          { title := orElse (file.config.getD {}).title "Audio Player", listening := true }) := by
  simp [AppHandler.renderAudioPlayer, AppHandler.audioUpdateUI, ham]

/-- The part of C11 that holds: a click while the `playing` flag is set calls
`pause`, and the control then shows the paused state. -/
theorem audioToggleClick_from_playing (intervals : IntervalMap) (am : AudioManager)
    (view : AudioPlayerView) (allowed : Bool) (hp : am.playing = true) :
    AppHandler.audioToggleClick { audioManager := some am, intervals := intervals } view allowed
      = ({ audioManager := some am.pause, intervals := intervals },
         { view with icon := "play", label := "Play Music", status := "Paused" }) := by
  have ht : am.toggle allowed = am.pause := by simp [AudioManager.toggle, hp]
  have hi := AudioManager.toggle_isPlaying am allowed
  rw [ht] at hi
  simp [AppHandler.audioToggleClick, AppHandler.audioUpdateUI, ht, hi]

/-- C11, at the failing input. `toggle` calls `pause` when the `playing` flag
is set and `play` otherwise, but `play` leaves the flag to a later job, so
`isPlaying()` is false right after every `toggle` and every click leaves the
control on `Paused` / `Play Music`. For the audio manager as constructed
(paused): after the click the audio element is no longer paused and the
control shows `Paused`; when the promise of `audio.play()` is fulfilled,
`isPlaying()` is true and the control still shows `Paused`. -/
theorem audio_toggle_from_paused_shows_paused :
    (∀ (a : AudioManager) (allowed : Bool),
      AudioManager.toggle { a with playing := true } allowed
        = AudioManager.pause { a with playing := true }) ∧
    (∀ (a : AudioManager) (allowed : Bool),
      AudioManager.toggle { a with playing := false } allowed
        = AudioManager.play { a with playing := false } allowed) ∧
    (∀ (a : AudioManager) (allowed : Bool), (a.toggle allowed).isPlaying = false) ∧
    (∀ (intervals : IntervalMap) (am : AudioManager) (view : AudioPlayerView) (allowed : Bool),
      (AppHandler.audioToggleClick { audioManager := some am, intervals := intervals }
          view allowed).2
        = { view with icon := "play", label := "Play Music", status := "Paused" }) ∧
    (AppHandler.new (some {})).audioToggleClick { title := "Audio Player", listening := true } true
      = ({ audioManager := some
             { playing := false, audioPaused := false, audioMuted := false, pendingPlay := 1 }
           intervals := [] },
         { title := "Audio Player", icon := "play", label := "Play Music", status := "Paused"
           listening := true }) ∧
    AppHandler.audioPlaySettled
        { audioManager := some
            { playing := false, audioPaused := false, audioMuted := false, pendingPlay := 1 }
          intervals := [] }
        { title := "Audio Player", icon := "play", label := "Play Music", status := "Paused"
          listening := true } true
      = ({ audioManager := some
             { playing := true, audioPaused := false, audioMuted := false, pendingPlay := 0 }
           intervals := [] },
         { title := "Audio Player", icon := "play", label := "Play Music", status := "Paused"
           listening := true }) ∧
    AudioManager.isPlaying
      { playing := true, audioPaused := false, audioMuted := false, pendingPlay := 0 } = true := by
  refine ⟨?_, ?_, AudioManager.toggle_isPlaying, ?_, by decide, by decide, by decide⟩
  · intro a allowed
    simp [AudioManager.toggle]
  · intro a allowed
    simp [AudioManager.toggle]
  · intro intervals am view allowed
    simp [AppHandler.audioToggleClick, AppHandler.audioUpdateUI,
      AudioManager.toggle_isPlaying am allowed]

/-! ## No orphan timers -/

theorem IntervalMap.has_iff_mem_keys (m : IntervalMap) (key : String) :
    IntervalMap.has m key = true ↔ key ∈ m.map Prod.fst := by
  simp only [IntervalMap.has, List.any_eq_true, beq_iff_eq, List.mem_map]

theorem IntervalMap.mem_of_get (m : IntervalMap) (key : String) (value : Nat)
    (h : IntervalMap.get m key = some value) : (key, value) ∈ m := by
  simp only [IntervalMap.get, Option.map_eq_some'] at h
  obtain ⟨e, he, hv⟩ := h
  have hk : e.1 = key := by simpa using List.find?_some he
  have hmem : e ∈ m := List.mem_of_find?_eq_some he
  have : e = (key, value) := Prod.ext hk hv
  rw [← this]
  exact hmem

theorem IntervalMap.get_of_has (m : IntervalMap) (key : String)
    (h : IntervalMap.has m key = true) : ∃ value, IntervalMap.get m key = some value := by
  simp only [IntervalMap.has, List.any_eq_true] at h
  have hs : (m.find? fun e => e.1 == key).isSome = true := List.find?_isSome.mpr h
  obtain ⟨e, he⟩ := Option.isSome_iff_exists.mp hs
  exact ⟨e.2, by simp [IntervalMap.get, he]⟩

theorem IntervalMap.get_of_mem (m : IntervalMap) (key : String) (value : Nat)
    (hkeys : (m.map Prod.fst).Nodup) (hmem : (key, value) ∈ m) :
    IntervalMap.get m key = some value := by
  have hhas : IntervalMap.has m key = true :=
    (IntervalMap.has_iff_mem_keys m key).mpr (List.mem_map.mpr ⟨(key, value), hmem, rfl⟩)
  obtain ⟨v, hv⟩ := IntervalMap.get_of_has m key hhas
  have hmem2 := IntervalMap.mem_of_get m key v hv
  have heq := List.inj_on_of_nodup_map hkeys hmem2 hmem rfl
  rw [hv, (Prod.mk.inj heq).2]

theorem IntervalMap.filter_key_eq_filter_value (m : IntervalMap) (key : String) (value : Nat)
    (hkeys : (m.map Prod.fst).Nodup) (hvalues : (m.map Prod.snd).Nodup)
    (hmem : (key, value) ∈ m) :
    (m.filter fun e => e.1 != key) = m.filter fun e => e.2 != value := by
  apply List.filter_congr
  intro e he
  by_cases hk : e.1 = key
  · have heq := List.inj_on_of_nodup_map hkeys he hmem hk
    subst heq
    show ((key, value).1 != key) = ((key, value).2 != value)
    simp
  · have hv : e.2 ≠ value := by
      intro hv
      have heq := List.inj_on_of_nodup_map hvalues he hmem hv
      exact hk (by rw [heq])
    have e1 : (e.1 != key) = true := bne_iff_ne.mpr hk
    have e2 : (e.2 != value) = true := bne_iff_ne.mpr hv
    show (e.1 != key) = (e.2 != value)
    rw [e1, e2]

theorem orElse_appType_countdown (appType : Option String) :
    orElse appType "unknown" = "countdown" ↔ appType = some "countdown" := by
  cases appType with
  | none => simp [orElse]
  | some t =>
    by_cases ht : t = ""
    · subst ht
      simp [orElse]
    · simp only [orElse, bne_iff_ne, ne_eq, ht, not_false_eq_true, if_true, Option.some.injEq]

theorem AppHandler.render_not_countdown (h : AppHandler) (clock : Clock) (timers : Timers)
    (container : Container) (file : File) (hat : file.appType ≠ some "countdown") :
    (h.render clock timers container file).handler = h ∧
    (h.render clock timers container file).timers = timers := by
  have hne : ¬ orElse file.appType "unknown" = "countdown" :=
    fun e => hat ((orElse_appType_countdown file.appType).mp e)
  unfold AppHandler.render
  simp only [hne, if_false]
  split <;> exact ⟨rfl, rfl⟩

theorem AppHandler.render_exactBookkeeping (state : AppHandler × Timers) (clock : Clock)
    (container : Container) (file : File)
    (hinv : AppHandler.exactBookkeeping state)
    (hfresh : file.appType = some "countdown" →
      IntervalMap.has state.1.intervals file.path = false) :
    AppHandler.exactBookkeeping
      (AppHandler.call state (AppCall.render clock container file)) := by
  obtain ⟨h, timers⟩ := state
  obtain ⟨hids, hkeys, hvalues, hlt⟩ := hinv
  by_cases hat : file.appType = some "countdown"
  · have hno := hfresh hat
    have hnotkey : file.path ∉ h.intervals.map Prod.fst := by
      intro hmem
      have := (IntervalMap.has_iff_mem_keys h.intervals file.path).mpr hmem
      simp only at hno
      rw [hno] at this
      cases this
    have hnotval : timers.nextId ∉ h.intervals.map Prod.snd :=
      fun hmem => Nat.lt_irrefl _ (hlt _ hmem)
    simp only at hno hids hkeys hvalues hlt
    simp only [AppHandler.call, AppHandler.render_countdown _ _ _ _ _ hat,
      AppHandler.renderCountdown, Timers.setInterval, IntervalMap.set, hno,
      Bool.false_eq_true, if_false]
    refine ⟨?_, ?_, ?_, ?_⟩
    · simp [hids]
    · rw [List.map_append]
      refine List.Nodup.append hkeys (List.nodup_singleton _) ?_
      intro a ha hb
      simp only [List.map_cons, List.map_nil, List.mem_singleton] at hb
      subst hb
      exact hnotkey ha
    · rw [List.map_append]
      refine List.Nodup.append hvalues (List.nodup_singleton _) ?_
      intro a ha hb
      simp only [List.map_cons, List.map_nil, List.mem_singleton] at hb
      subst hb
      exact hnotval ha
    · intro v hv
      simp only [List.map_append, List.map_cons, List.map_nil, List.mem_append,
        List.mem_singleton] at hv
      rcases hv with hv | hv
      · exact Nat.lt_succ_of_lt (hlt v hv)
      · rw [hv]
        exact Nat.lt_succ_self _
  · obtain ⟨e1, e2⟩ := AppHandler.render_not_countdown h clock timers container file hat
    simp only [AppHandler.call, e1, e2]
    exact ⟨hids, hkeys, hvalues, hlt⟩

theorem AppHandler.cleanup_exactBookkeeping (state : AppHandler × Timers) (path : String)
    (hinv : AppHandler.exactBookkeeping state) :
    AppHandler.exactBookkeeping (AppHandler.call state (AppCall.cleanup path)) := by
  obtain ⟨h, timers⟩ := state
  obtain ⟨hids, hkeys, hvalues, hlt⟩ := hinv
  simp only at hids hkeys hvalues hlt
  simp only [AppHandler.call]
  cases hhas : IntervalMap.has h.intervals path with
  | false =>
    rw [AppHandler.cleanup_of_not_has h timers path hhas]
    exact ⟨hids, hkeys, hvalues, hlt⟩
  | true =>
    obtain ⟨id, hget⟩ := IntervalMap.get_of_has h.intervals path hhas
    have hmem := IntervalMap.mem_of_get h.intervals path id hget
    have hfilter := IntervalMap.filter_key_eq_filter_value h.intervals path id hkeys hvalues hmem
    simp only [AppHandler.cleanup, hhas, if_true, hget, Timers.clearInterval,
      IntervalMap.delete]
    refine ⟨?_, ?_, ?_, ?_⟩
    · rw [hfilter]
      have e1 : (List.filter (fun x => x.id != id) timers.live).map (fun x => x.id)
          = ((timers.live.map fun x => x.id).filter fun v => v != id) := by
        rw [List.filter_map]
        rfl
      have e2 : (List.filter (fun e => e.2 != id) h.intervals).map Prod.snd
          = ((h.intervals.map Prod.snd).filter fun v => v != id) := by
        rw [List.filter_map]
        rfl
      rw [e1, e2, hids]
    · exact hkeys.sublist ((List.filter_sublist _).map _)
    · exact hvalues.sublist ((List.filter_sublist _).map _)
    · intro v hv
      exact hlt v (((List.filter_sublist _).map _).subset hv)

theorem AppHandler.runCalls_exactBookkeeping (calls : List AppCall) (state : AppHandler × Timers)
    (hinv : AppHandler.exactBookkeeping state) (hcalls : AppHandler.noRerender state calls) :
    AppHandler.exactBookkeeping (AppHandler.runCalls state calls) := by
  induction calls generalizing state with
  | nil => exact hinv
  | cons c rest ih =>
    cases c with
    | render clock container file =>
      exact ih _ (AppHandler.render_exactBookkeeping state clock container file hinv hcalls.1)
        hcalls.2
    | cleanup path =>
      exact ih _ (AppHandler.cleanup_exactBookkeeping state path hinv) hcalls

/-- C12, as amended. No orphan timers: from a new handler on a page without
live timers, after every sequence of `render` and `cleanup` calls in which no
countdown file is rendered while its path has an entry in the intervals map,
the live timers are exactly the intervals recorded in the map, so their number
is the size of the map and every live timer is the value of some path; and
every render of a countdown file records the interval it starts under the
path of the file. -/
theorem no_orphan_timers_without_rerender (audioManager : Option AudioManager) (nextId : Nat)
    (calls : List AppCall)
    (hcalls : AppHandler.noRerender
      (AppHandler.new audioManager, { nextId := nextId, live := [] }) calls) :
    ((AppHandler.runCalls (AppHandler.new audioManager, { nextId := nextId, live := [] })
        calls).2.live.map fun x => x.id)
      = (AppHandler.runCalls (AppHandler.new audioManager, { nextId := nextId, live := [] })
          calls).1.intervals.map Prod.snd ∧
    (AppHandler.runCalls (AppHandler.new audioManager, { nextId := nextId, live := [] })
        calls).2.live.length
      = (AppHandler.runCalls (AppHandler.new audioManager, { nextId := nextId, live := [] })
          calls).1.intervals.length ∧
    (∀ x ∈ (AppHandler.runCalls (AppHandler.new audioManager, { nextId := nextId, live := [] })
        calls).2.live,
      ∃ path, IntervalMap.get
        (AppHandler.runCalls (AppHandler.new audioManager, { nextId := nextId, live := [] })
          calls).1.intervals path = some x.id) ∧
    (∀ (h : AppHandler) (clock : Clock) (timers : Timers) (container : Container) (file : File),
      file.appType = some "countdown" →
      IntervalMap.get (h.render clock timers container file).handler.intervals file.path
        = some timers.nextId ∧
      timers.nextId ∈ (h.render clock timers container file).timers.live.map fun x => x.id) := by
  have hstart : AppHandler.exactBookkeeping
      (AppHandler.new audioManager, { nextId := nextId, live := [] }) := by
    refine ⟨rfl, ?_, ?_, ?_⟩
    · exact List.nodup_nil
    · exact List.nodup_nil
    · intro v hv
      cases hv
  obtain ⟨hids, hkeys, _, _⟩ := AppHandler.runCalls_exactBookkeeping calls _ hstart hcalls
  refine ⟨hids, ?_, ?_, ?_⟩
  · have := congrArg List.length hids
    simpa using this
  · intro x hx
    have hmem : x.id ∈ (AppHandler.runCalls
        (AppHandler.new audioManager, { nextId := nextId, live := [] }) calls).1.intervals.map
          Prod.snd := by
      rw [← hids]
      exact List.mem_map.mpr ⟨x, hx, rfl⟩
    obtain ⟨e, he, hv⟩ := List.mem_map.mp hmem
    refine ⟨e.1, ?_⟩
    rw [← hv]
    exact IntervalMap.get_of_mem _ e.1 e.2 hkeys he
  · intro h clock timers container file hat
    rw [AppHandler.render_countdown _ _ _ _ _ hat]
    refine ⟨IntervalMap.get_set _ _ _, ?_⟩
    simp [AppHandler.renderCountdown, Timers.setInterval]

/-- Witness of C12 as amended: two countdowns opened, the first closed and
opened again; intervals 2 and 3 are live and recorded. -/
theorem no_orphan_timers_without_rerender_witness :
    AppHandler.noRerender (AppHandler.new none, { nextId := 1, live := [] }) reopenCalls ∧
    ((AppHandler.runCalls (AppHandler.new none, { nextId := 1, live := [] })
        reopenCalls).2.live.map fun x => x.id)
      = (AppHandler.runCalls (AppHandler.new none, { nextId := 1, live := [] })
          reopenCalls).1.intervals.map Prod.snd ∧
    (AppHandler.runCalls (AppHandler.new none, { nextId := 1, live := [] })
        reopenCalls).1.intervals
      = [("/home/hedge/timer.app", 2), ("/home/hedge/countdown.app", 3)] :=
  ⟨⟨fun _ => by decide, fun _ => by decide, fun _ => by decide, trivial⟩,
    (no_orphan_timers_without_rerender none 1 reopenCalls
      ⟨fun _ => by decide, fun _ => by decide, fun _ => by decide, trivial⟩).1,
    by decide⟩

/-- C12, counterexample. The same countdown file rendered twice without a
cleanup in between: intervals 1 and 2 are live, the map records only
interval 2 under the path, so there are two live timers for a map of size
one; a cleanup of the path then cancels interval 2 and leaves interval 1 live
with an empty map. -/
theorem orphan_timer_after_rerender :
    ((AppHandler.runCalls (AppHandler.new none, { nextId := 1, live := [] })
        rerenderCalls).2.live.map fun x => x.id) = [1, 2] ∧
    (AppHandler.runCalls (AppHandler.new none, { nextId := 1, live := [] })
        rerenderCalls).1.intervals = [("/home/hedge/countdown.app", 2)] ∧
    (AppHandler.runCalls (AppHandler.new none, { nextId := 1, live := [] })
        rerenderCalls).2.live.length
      ≠ (AppHandler.runCalls (AppHandler.new none, { nextId := 1, live := [] })
          rerenderCalls).1.intervals.length ∧
    ((AppHandler.runCalls (AppHandler.new none, { nextId := 1, live := [] })
        (rerenderCalls ++ [AppCall.cleanup "/home/hedge/countdown.app"])).2.live.map
          fun x => x.id) = [1] ∧
    (AppHandler.runCalls (AppHandler.new none, { nextId := 1, live := [] })
        (rerenderCalls ++ [AppCall.cleanup "/home/hedge/countdown.app"])).1.intervals = [] := by
  refine ⟨?_, ?_, ?_, ?_, ?_⟩ <;> decide

end Hedge
